import Mathlib

/-!
Verification of the sshm session/transfer core against its design notes.

Each Go function under scrutiny is embedded shallowly as a Lean definition:
pure string manipulation becomes a pure function, effectful operations
(network dials, filesystem syscalls, the SFTP RealPath round trip) become
explicit oracle parameters, and the concurrency coordinator is modelled by
the trace of operations it performs in program order.

Go `strings` primitives are re-implemented on the character list underlying
a `String` (paths here are ASCII, so Go's byte indexing coincides with
character indexing); this keeps every definition kernel-computable.
-/

namespace SSHM

/-! ## Go `strings` primitives -/

/-- `strings.Split(s, "/")` restricted to the one-character separator the
code uses: split at every `/`, keeping empty segments (Go returns `[""]`
for the empty string). -/
def splitOnSlash : List Char → List (List Char)
  | [] => [[]]
  | c :: rest =>
    let r := splitOnSlash rest
    if c = '/' then [] :: r
    else
      match r with
      | [] => [[c]]
      | seg :: segs => (c :: seg) :: segs

/-- `strings.HasPrefix`. -/
def goHasPrefix (s pre : String) : Bool := pre.data.isPrefixOf s.data

/-- `strings.HasSuffix`. -/
def goHasSuffix (s suf : String) : Bool := suf.data.isSuffixOf s.data

/-- `strings.Join` / `strings.Join(parts, sep)`. -/
def goJoin (parts : List String) (sep : String) : String :=
  String.mk (List.intercalate sep.data (parts.map String.data))

/-- `strings.TrimPrefix(s, p)`: drop `p` from the front when it is a prefix. -/
def goTrimPrefix (s p : String) : String :=
  if goHasPrefix s p then String.mk (s.data.drop p.data.length) else s

/-- `strings.TrimSuffix(s, p)`: drop `p` from the end when it is a suffix. -/
def goTrimSuffix (s p : String) : String :=
  if goHasSuffix s p then String.mk (s.data.take (s.data.length - p.data.length)) else s

/-! ## Dual-CWD path resolver (package sftp, PathState) -/

/-- Dual working-directory state: independent local and remote CWDs and homes.
The live `*sftp.Client` handle is not part of the pure state; operations that
consult the remote filesystem take an oracle instead. -/
structure PathState where
  LocalCWD : String
  RemoteCWD : String
  HomeLocal : String
  HomeRemote : String
  deriving DecidableEq, Repr

/-- `cleanPath` from the sftp package: split a remote path on `/`, drop empty
and `.` segments, let `..` pop the previous collected segment, rejoin with `/`
rooted at `/`, and trim one trailing slash (Go `strings.TrimSuffix`). -/
def cleanPath (path : String) : String :=
  let parts := (splitOnSlash path.data).map String.mk
  let cleaned := parts.foldl
    (fun acc part =>
      if part = "" || part = "." then acc
      else if part = ".." then acc.dropLast
      else acc ++ [part])
    ([] : List String)
  let result := "/" ++ goJoin cleaned "/"
  if result = "/" then result
  else goTrimSuffix result "/"

/-- `joinPath` from the sftp package: `/`-only join of a base and a relative
part, inserting a slash only when the base does not already end in one. -/
def joinPath (base rel : String) : String :=
  if goHasSuffix base "/" then base ++ rel else base ++ "/" ++ rel

/-- The Go guard `len(path) > 1 && path[1] != '/'` on the `~`-prefixed branch. -/
def secondCharNotSlash (path : String) : Bool :=
  match path.data with
  | _ :: c :: _ => c ≠ '/'
  | _ => false

/-- `PathState.ResolveRemote`: empty or `.` means the remote CWD; an absolute
path is cleaned with `cleanPath`; `~`/`~/rest` expand against the remote home
(`~user` is rejected); anything else is `/`-joined onto the remote CWD. -/
def PathState.ResolveRemote (ps : PathState) (path : String) : Except String String :=
  if path = "" || path = "." then .ok ps.RemoteCWD
  else if goHasPrefix path "/" then .ok (cleanPath path)
  else if goHasPrefix path "~" then
    if secondCharNotSlash path then .error "~user not supported"
    else
      let rest := goTrimPrefix path "~"
      if rest = "" then .ok ps.HomeRemote
      else .ok (joinPath ps.HomeRemote rest)
  else .ok (joinPath ps.RemoteCWD path)

/-- `PathState.UpdateRemoteCWD`: run the remote filesystem's `RealPath` on the
given path; on success store the canonicalized result as the new remote CWD,
on failure report the error and leave the state untouched. The SFTP RealPath
round trip is the oracle `realPath`. -/
def PathState.UpdateRemoteCWD (realPath : String → Except String String)
    (ps : PathState) (path : String) : PathState × Except String Unit :=
  match realPath path with
  | .error e => (ps, .error ("realpath " ++ path ++ ": " ++ e))
  | .ok real => ({ ps with RemoteCWD := real }, .ok ())

example : cleanPath "/x/../y" = "/y" := by decide
example : cleanPath "/a//b/./c" = "/a/b/c" := by decide
example : cleanPath "/a/b/../../../c" = "/c" := by decide
example : joinPath "/a/b" ".." = "/a/b/.." := by decide
example : (PathState.mk "/l" "/a/b" "/hl" "/hr").ResolveRemote ".." =
    Except.ok "/a/b/.." := rfl
example : (PathState.mk "/l" "/a/b" "/hl" "/hr").ResolveRemote "~/x" =
    Except.ok "/hr//x" := rfl
example : (PathState.mk "/l" "/a/b" "/hl" "/hr").ResolveRemote "~u" =
    Except.error "~user not supported" := rfl

/-! ## Jump chain (pkg/ssh/jump.go, pkg/config host descriptors) -/

/-- A host descriptor (pkg/config `Host`), restricted to the fields the jump
chain reads: the display name and the ordered list of intermediate hop
descriptors. -/
inductive Host where
  | mk (Name : String) (Jump : List Host)
  deriving Inhabited

/-- The descriptor's display name. -/
def Host.Name : Host → String
  | .mk n _ => n

/-- The descriptor's ordered jump-hop list. -/
def Host.Jump : Host → List Host
  | .mk _ j => j

/-- What `JumpChain.Connect` returns: the final transport on success, a
wrapped error naming the 1-based failing hop index, its descriptor name and
the underlying cause on failure, or an out-of-bounds slice access when the
descriptor list was empty. Transports are abstract ids (`Nat`). -/
inductive ConnectResult where
  | ok (transport : Nat)
  | hopFailed (index : Nat) (name : String) (cause : String)
  | panics
  deriving DecidableEq, Repr

/-- Observable outcome of one `Connect` run: the result, the transports
passed to `Close` in call order, and the `clients` slice left in the chain. -/
structure ConnectOutcome where
  result : ConnectResult
  closed : List Nat
  clients : List Nat
  deriving DecidableEq, Repr

/-- The loop of `JumpChain.Connect`, carrying the hop index `i` and the
accumulated `clients` slice. `hopConn i h` is the oracle for `connectHop`:
opening hop `i` with descriptor `h` either yields a live transport or fails
with a cause. On failure the code runs `closeAll` — every accumulated client
closed in reverse order (target-most first) and the slice set to nil — and
wraps the cause as `hop i+1 (name)`. When the descriptor list is exhausted,
`Connect` returns `jc.clients[len(jc.clients)-1]`, an out-of-bounds access
when no client was ever appended. -/
def connectLoop (hopConn : Nat → Host → Except String Nat) :
    List Host → Nat → List Nat → ConnectOutcome
  | [], _, acc =>
    match acc.getLast? with
    | some t => ⟨.ok t, [], acc⟩
    | none => ⟨.panics, [], acc⟩
  | h :: rest, i, acc =>
    match hopConn i h with
    | .ok t => connectLoop hopConn rest (i + 1) (acc ++ [t])
    | .error e => ⟨.hopFailed (i + 1) h.Name e, acc.reverse, []⟩

/-- `JumpChain.Connect` on a chain freshly built from `hosts`. -/
def JumpChain.Connect (hopConn : Nat → Host → Except String Nat)
    (hosts : List Host) : ConnectOutcome :=
  connectLoop hopConn hosts 0 []

/-- `JumpChain.IsConnected`: `len(jc.clients) > 0`. -/
def JumpChain.IsConnected (clients : List Nat) : Bool :=
  decide (0 < clients.length)

/-- `NewJumpChainWithTarget`: the chain descriptor list is the host's jump
hosts followed by the host itself as final destination. -/
def NewJumpChainWithTarget (host : Host) : List Host :=
  host.Jump ++ [host]

/-- The hop-connection oracle describing a run in which hops at 0-based
indices `< k - 1` succeed (hop `i` opening transport `f i`) and the hop at
index `k - 1` fails with cause `e`. -/
def hopConnFailAt (k : Nat) (f : Nat → Nat) (e : String) :
    Nat → Host → Except String Nat :=
  fun i _ => if i < k - 1 then .ok (f i) else .error e

theorem connectLoop_failAt (k : Nat) (f : Nat → Nat) (e : String) (hk : 1 ≤ k) :
    ∀ (hosts : List Host) (i : Nat) (acc : List Nat), i ≤ k - 1 →
      k - 1 - i < hosts.length →
      connectLoop (hopConnFailAt k f e) hosts i acc =
        ⟨.hopFailed k ((hosts.getD (k - 1 - i) default).Name) e,
         (acc ++ (List.range' i (k - 1 - i)).map f).reverse, []⟩ := by
  intro hosts
  induction hosts with
  | nil => intro i acc _ hlen; simp at hlen
  | cons h rest ih =>
    intro i acc hik hlen
    rcases Nat.lt_or_ge i (k - 1) with hlt | hge
    · have hs : hopConnFailAt k f e i h = .ok (f i) := by
        simp [hopConnFailAt, hlt]
      have hrec : k - 1 - i = (k - 1 - (i + 1)) + 1 := by omega
      simp only [connectLoop, hs]
      rw [ih (i + 1) (acc ++ [f i]) (by omega) (by simp at hlen; omega)]
      rw [hrec]
      simp [List.range'_succ, List.getD]
    · have hieq : i = k - 1 := by omega
      have hf : hopConnFailAt k f e i h = .error e := by
        simp [hopConnFailAt]; omega
      rw [connectLoop, hf]
      have h0 : k - 1 - i = 0 := by omega
      simp [h0, hieq, List.getD]
      omega

/-- C2: when hop `k` (1-based) of an `N ≥ 1`-descriptor chain fails after
hops `1..k-1` opened transports `f 0, …, f (k-2)`, `Connect` reports
`hop k (name_k)` with the underlying cause, closes exactly the previously
opened transports in reverse order (target-most first, each exactly once for
distinct transports), and leaves the chain with zero live clients, so
`IsConnected` is false. -/
theorem C2_connect_failure_cleanup (hosts : List Host) (k : Nat) (f : Nat → Nat)
    (e : String) (hf : Function.Injective f) (hk : 1 ≤ k) (hkn : k ≤ hosts.length) :
    JumpChain.Connect (hopConnFailAt k f e) hosts =
      ⟨.hopFailed k ((hosts.getD (k - 1) default).Name) e,
       ((List.range (k - 1)).map f).reverse, []⟩ ∧
    (∀ j, j < k - 1 →
      (JumpChain.Connect (hopConnFailAt k f e) hosts).closed.count (f j) = 1) ∧
    JumpChain.IsConnected (JumpChain.Connect (hopConnFailAt k f e) hosts).clients = false := by
  have hmain : JumpChain.Connect (hopConnFailAt k f e) hosts =
      ⟨.hopFailed k ((hosts.getD (k - 1) default).Name) e,
       ((List.range (k - 1)).map f).reverse, []⟩ := by
    have := connectLoop_failAt k f e hk hosts 0 [] (by omega) (by omega)
    simpa [JumpChain.Connect, List.range_eq_range'] using this
  refine ⟨hmain, ?_, ?_⟩
  · intro j hj
    rw [hmain]
    have hnd : (((List.range (k - 1)).map f).reverse).Nodup := by
      simp [List.nodup_reverse]
      exact (List.nodup_range _).map hf
    have hmem : f j ∈ ((List.range (k - 1)).map f).reverse := by
      simp
      exact ⟨j, by simpa using hj, rfl⟩
    exact List.count_eq_one_of_mem hnd hmem
  · rw [hmain]
    simp [JumpChain.IsConnected]

/-- Concrete instance of `C2_connect_failure_cleanup`: a 3-descriptor chain
whose third hop fails; transports 10 and 11 (hops 1 and 2) are closed in
reverse order and no client survives. -/
theorem C2_connect_failure_cleanup_witness :
    JumpChain.Connect (hopConnFailAt 3 (fun i => 10 + i) "dial refused")
        [Host.mk "j1" [], Host.mk "j2" [], Host.mk "target" []] =
      ⟨.hopFailed 3 "target" "dial refused", [11, 10], []⟩ ∧
    (JumpChain.Connect (hopConnFailAt 3 (fun i => 10 + i) "dial refused")
        [Host.mk "j1" [], Host.mk "j2" [], Host.mk "target" []]).closed.count 10 = 1 := by
  have h := C2_connect_failure_cleanup
    [Host.mk "j1" [], Host.mk "j2" [], Host.mk "target" []] 3 (fun i => 10 + i)
    "dial refused" (fun a b hab => by simpa using hab) (by omega) (by simp)
  refine ⟨by rw [h.1]; rfl, ?_⟩
  have := h.2.1 0 (by omega)
  simpa using this

/-- The hop-connection oracle for a run in which every hop succeeds, hop `i`
opening transport `f i`. -/
def hopConnAllOk (f : Nat → Nat) : Nat → Host → Except String Nat :=
  fun i _ => .ok (f i)

theorem connectLoop_allOk (f : Nat → Nat) :
    ∀ (hosts : List Host) (i : Nat) (acc : List Nat),
      connectLoop (hopConnAllOk f) hosts i acc =
        match (acc ++ (List.range' i hosts.length).map f).getLast? with
        | some t => ⟨.ok t, [], acc ++ (List.range' i hosts.length).map f⟩
        | none => ⟨.panics, [], acc ++ (List.range' i hosts.length).map f⟩ := by
  intro hosts
  induction hosts with
  | nil => intro i acc; simp [connectLoop]
  | cons h rest ih =>
    intro i acc
    simp only [connectLoop, hopConnAllOk]
    rw [ih (i + 1) (acc ++ [f i])]
    simp [List.range'_succ]

theorem range_map_getLast? (f : Nat → Nat) (n : Nat) (hn : 1 ≤ n) :
    ((List.range n).map f).getLast? = some (f (n - 1)) := by
  rcases n with _ | m
  · omega
  · rw [List.range_succ]
    simp

/-- C10: with every hop succeeding, `Connect` on a non-empty descriptor list
returns the transport opened for the last (target) descriptor — the final
`jc.clients[len(jc.clients)-1]` access is in bounds. The non-emptiness
precondition is necessary: on an empty descriptor list the same access is
out of bounds (Connect is not total there). `NewJumpChainWithTarget` always
establishes the precondition by appending the target host to the jump list. -/
theorem C10_connect_last_index (hosts : List Host) (f : Nat → Nat)
    (hne : hosts ≠ []) :
    JumpChain.Connect (hopConnAllOk f) hosts =
      ⟨.ok (f (hosts.length - 1)), [], (List.range hosts.length).map f⟩ ∧
    (∀ g : Nat → Nat, JumpChain.Connect (hopConnAllOk g) [] = ⟨.panics, [], []⟩) ∧
    (∀ host : Host, NewJumpChainWithTarget host ≠ []) := by
  refine ⟨?_, fun g => rfl, fun host => by simp [NewJumpChainWithTarget]⟩
  have hlen : 1 ≤ hosts.length := by
    cases hosts with
    | nil => exact absurd rfl hne
    | cons h t => simp
  have h := connectLoop_allOk f hosts 0 []
  rw [JumpChain.Connect, h]
  rw [show (List.range' 0 hosts.length).map f = (List.range hosts.length).map f by
    rw [List.range_eq_range']]
  simp [range_map_getLast? f hosts.length hlen]

/-- Concrete instance of `C10_connect_last_index`: a 2-descriptor chain where
both hops succeed returns the target's transport `8`. -/
theorem C10_connect_last_index_witness :
    JumpChain.Connect (hopConnAllOk (fun i => 7 + i))
        [Host.mk "j" [], Host.mk "t" []] = ⟨.ok 8, [], [7, 8]⟩ := by
  have h := C10_connect_last_index [Host.mk "j" [], Host.mk "t" []]
    (fun i => 7 + i) (by simp)
  rw [h.1]; decide

/-- C6: after a successful `UpdateRemoteCWD p`, the stored remote CWD is the
remote filesystem's canonicalization of `p` (in particular it differs from
the locally computed string `p` whenever the canonicalization does); on a
failed canonicalization an error is returned and the state is unchanged. -/
theorem C6_updateRemoteCWD (realPath : String → Except String String)
    (ps : PathState) (p : String) :
    (∀ r, realPath p = .ok r →
      (PathState.UpdateRemoteCWD realPath ps p).1.RemoteCWD = r ∧
      (r ≠ p → (PathState.UpdateRemoteCWD realPath ps p).1.RemoteCWD ≠ p) ∧
      (PathState.UpdateRemoteCWD realPath ps p).2 = .ok ()) ∧
    (∀ e, realPath p = .error e →
      (PathState.UpdateRemoteCWD realPath ps p).1 = ps ∧
      (PathState.UpdateRemoteCWD realPath ps p).2 =
        .error ("realpath " ++ p ++ ": " ++ e)) := by
  constructor
  · intro r hr
    refine ⟨by simp [PathState.UpdateRemoteCWD, hr], ?_,
      by simp [PathState.UpdateRemoteCWD, hr]⟩
    intro hne
    simpa [PathState.UpdateRemoteCWD, hr] using hne
  · intro e he
    simp [PathState.UpdateRemoteCWD, he]

/-- Concrete instance of `C6_updateRemoteCWD`: canonicalizing the symlinked
`/var` to `/private/var` stores the canonical form, not the argument. -/
theorem C6_updateRemoteCWD_witness :
    (PathState.UpdateRemoteCWD (fun _ => .ok "/private/var")
        (PathState.mk "/l" "/a" "/hl" "/hr") "/var").1.RemoteCWD = "/private/var" ∧
    "/private/var" ≠ "/var" :=
  ⟨((C6_updateRemoteCWD (fun _ => .ok "/private/var")
      (PathState.mk "/l" "/a" "/hl" "/hr") "/var").1 "/private/var" rfl).1,
   by decide⟩

/-- C1 as stated fails on the code: with remote CWD `/a/b`, the relative
input `..` is `/`-joined onto the CWD without `..`-collapsing, yielding
`/a/b/..` rather than the claimed `/a`. -/
theorem C1_resolveRemote_counterexample :
    (PathState.mk "/l" "/a/b" "/hl" "/hr").ResolveRemote ".." =
      Except.ok "/a/b/.." ∧ "/a/b/.." ≠ "/a" :=
  ⟨rfl, by decide⟩

/-- C1 amended: `ResolveRemote` uses `/`-only joining throughout; an absolute
input gets the resolver's own `..`-collapsing (`ResolveRemote "/x/../y"`
yields `/y`), `~` yields the remote home, but a relative input is joined onto
the remote CWD without `..`-collapsing: from `/a/b`, `ResolveRemote ".."`
yields `/a/b/..` (collapse of relative `..` is deferred to the remote
RealPath in `UpdateRemoteCWD`). -/
theorem C1_resolveRemote_amended (ps : PathState) (h : ps.RemoteCWD = "/a/b") :
    ps.ResolveRemote "/x/../y" = .ok "/y" ∧
    ps.ResolveRemote "~" = .ok ps.HomeRemote ∧
    ps.ResolveRemote ".." = .ok "/a/b/.." := by
  refine ⟨rfl, rfl, ?_⟩
  rw [show ps.ResolveRemote ".." = Except.ok (joinPath ps.RemoteCWD "..") from rfl, h]
  rfl

/-- Concrete instance of `C1_resolveRemote_amended` at remote CWD `/a/b`. -/
theorem C1_resolveRemote_amended_witness :
    (PathState.mk "/l" "/a/b" "/hl" "/hr").ResolveRemote "/x/../y" = Except.ok "/y" ∧
    (PathState.mk "/l" "/a/b" "/hl" "/hr").ResolveRemote "~" = Except.ok "/hr" ∧
    (PathState.mk "/l" "/a/b" "/hl" "/hr").ResolveRemote ".." = Except.ok "/a/b/.." :=
  C1_resolveRemote_amended (PathState.mk "/l" "/a/b" "/hl" "/hr") rfl

/-! ## Terminal mode manager (pkg/terminal/manager.go) -/

/-- The mutable fields of `terminal.Manager`: the captured original terminal
attributes (if any), the raw-mode flag, the bound session, and the identity
of the current `stopResize` channel. Attribute words, sessions and channels
are abstract ids. -/
structure Manager where
  originalState : Option Nat
  inRawMode : Bool
  session : Option Nat
  stopResize : Nat
  deriving DecidableEq, Repr

/-- The terminal world: the controlling terminal's current attribute word
plus the manager state. `term.MakeRaw` switches the attributes to the
distinguished raw discipline and returns the previous attributes;
`term.Restore` installs a stored attribute word. A failed syscall is
modelled as leaving the attributes unchanged. -/
structure World where
  attrs : Nat
  mgr : Manager
  deriving DecidableEq, Repr

/-- `terminal.New()`: the manager starts in cooked mode with no bound
session; `term.GetState` captures the original attributes already at
creation when it succeeds. -/
def NewManager (getStateOk : Bool) (attrs0 chan0 : Nat) : Manager :=
  { originalState := if getStateOk then some attrs0 else none,
    inRawMode := false, session := none, stopResize := chan0 }

/-- `Manager.EnterRaw`: fails if already in raw mode; otherwise calls
`term.MakeRaw` (`sysOk` is its outcome) — capturing its returned previous
attributes as the original only when none are stored yet, and explicitly not
overwriting a stored original — then sets the raw flag, binds the session
and installs a fresh stop channel. -/
def EnterRaw (raw sess chanId : Nat) (sysOk : Bool) (w : World) :
    World × Except String Unit :=
  if w.mgr.inRawMode then (w, .error "already in raw mode")
  else if !sysOk then (w, .error "make raw")
  else
    match w.mgr.originalState with
    | none =>
        ({ attrs := raw,
           mgr := { originalState := some w.attrs, inRawMode := true,
                    session := some sess, stopResize := chanId } }, .ok ())
    | some orig =>
        ({ attrs := raw,
           mgr := { originalState := some orig, inRawMode := true,
                    session := some sess, stopResize := chanId } }, .ok ())

/-- `Manager.Restore`: returns immediately when not in raw mode; otherwise
clears the raw flag and the bound session and installs a fresh stop channel
first, then restores the terminal attributes from the stored original
(`sysOk` is the outcome of `term.Restore`; when no original was ever
captured, no restore syscall is attempted). -/
def Restore (chanId : Nat) (sysOk : Bool) (w : World) : World × Except String Unit :=
  if !w.mgr.inRawMode then (w, .ok ())
  else
    let mgr' : Manager :=
      { originalState := w.mgr.originalState, inRawMode := false,
        session := none, stopResize := chanId }
    match w.mgr.originalState with
    | some orig =>
        if sysOk then ({ attrs := orig, mgr := mgr' }, .ok ())
        else ({ attrs := w.attrs, mgr := mgr' }, .error "restore terminal")
    | none => ({ attrs := w.attrs, mgr := mgr' }, .ok ())

theorem restore_clears_raw (chanId : Nat) (sysOk : Bool) (w : World) :
    (Restore chanId sysOk w).1.mgr.inRawMode = false := by
  by_cases hr : w.mgr.inRawMode
  · cases horig : w.mgr.originalState <;> cases sysOk <;>
      simp [Restore, hr, horig]
  · simp only [Bool.not_eq_true] at hr
    simp [Restore, hr]

/-- C3: `Restore` is idempotent — when the manager is not in raw mode it
returns immediately with no error and no state change, and after any
`Restore` call (on any state, with any syscall outcome) a second `Restore`
returns no error and changes nothing. -/
theorem C3_restore_idempotent (w : World) (chanId : Nat) (sysOk : Bool)
    (h : w.mgr.inRawMode = false) :
    Restore chanId sysOk w = (w, .ok ()) ∧
    ∀ (w' : World) (c1 c2 : Nat) (ok1 ok2 : Bool),
      Restore c2 ok2 (Restore c1 ok1 w').1 = ((Restore c1 ok1 w').1, .ok ()) := by
  constructor
  · simp [Restore, h]
  · intro w' c1 c2 ok1 ok2
    have hnr := restore_clears_raw c1 ok1 w'
    generalize (Restore c1 ok1 w').1 = w1 at hnr ⊢
    simp [Restore, hnr]

/-- Concrete instance of `C3_restore_idempotent`: restoring a cooked-mode
manager is a no-op, and a second restore after a real one is a no-op. -/
theorem C3_restore_idempotent_witness :
    Restore 1 true ⟨5, ⟨some 5, false, none, 0⟩⟩ =
      (⟨5, ⟨some 5, false, none, 0⟩⟩, .ok ()) ∧
    Restore 3 true (Restore 2 true ⟨9, ⟨some 5, true, some 1, 0⟩⟩).1 =
      ((Restore 2 true ⟨9, ⟨some 5, true, some 1, 0⟩⟩).1, .ok ()) :=
  ⟨(C3_restore_idempotent ⟨5, ⟨some 5, false, none, 0⟩⟩ 1 true rfl).1,
   (C3_restore_idempotent ⟨5, ⟨some 5, false, none, 0⟩⟩ 1 true rfl).2
     ⟨9, ⟨some 5, true, some 1, 0⟩⟩ 2 3 true true⟩

/-- One call into the terminal manager: `EnterRaw` with a session, a fresh
stop-channel id and the `MakeRaw` outcome, or `Restore` with a fresh
stop-channel id and the `term.Restore` outcome. -/
inductive TermOp where
  | enterRaw (sess chanId : Nat) (sysOk : Bool)
  | restoreCall (chanId : Nat) (sysOk : Bool)
  deriving DecidableEq, Repr

/-- Whether the attribute-restoring syscall of this operation (if any)
succeeds; `EnterRaw` performs none. -/
def TermOp.restoreSysOk : TermOp → Bool
  | .enterRaw _ _ _ => true
  | .restoreCall _ ok => ok

/-- Apply one manager call to the world, keeping only the state (errors are
reported to the caller and do not alter the world further). -/
def runTermOp (raw : Nat) (w : World) : TermOp → World
  | .enterRaw sess ch ok => (EnterRaw raw sess ch ok w).1
  | .restoreCall ch ok => (Restore ch ok w).1

/-- Run a sequence of manager calls. -/
def runTermOps (raw : Nat) : List TermOp → World → World
  | [], w => w
  | op :: ops, w => runTermOps raw ops (runTermOp raw w op)

theorem runTermOps_invariant (raw a0 : Nat) (ops : List TermOp)
    (hops : ∀ op ∈ ops, op.restoreSysOk = true) :
    ∀ w : World, w.mgr.originalState = some a0 →
      (w.mgr.inRawMode = false → w.attrs = a0) →
      (runTermOps raw ops w).mgr.originalState = some a0 ∧
      ((runTermOps raw ops w).mgr.inRawMode = false →
        (runTermOps raw ops w).attrs = a0) := by
  induction ops with
  | nil => intro w h1 h2; exact ⟨h1, h2⟩
  | cons op ops ih =>
    intro w h1 h2
    have hop : op.restoreSysOk = true := hops op (by simp)
    have hrest : ∀ o ∈ ops, o.restoreSysOk = true :=
      fun o ho => hops o (by simp [ho])
    rw [runTermOps]
    apply ih hrest
    · cases op with
      | enterRaw sess ch ok =>
        by_cases hr : w.mgr.inRawMode <;> cases ok <;>
          simp [runTermOp, EnterRaw, hr, h1]
      | restoreCall ch ok =>
        simp [TermOp.restoreSysOk] at hop
        by_cases hr : w.mgr.inRawMode <;>
          simp [runTermOp, Restore, hr, h1, hop]
    · cases op with
      | enterRaw sess ch ok =>
        by_cases hr : w.mgr.inRawMode <;> cases ok <;>
          (simp [runTermOp, EnterRaw, hr, h1]; try simpa [hr] using h2)
      | restoreCall ch ok =>
        simp [TermOp.restoreSysOk] at hop
        by_cases hr : w.mgr.inRawMode
        · simp [runTermOp, Restore, hr, h1, hop]
        · simp only [runTermOp, Restore, hr]
          simpa [hr] using h2

/-- C5: the original terminal attributes are captured at most once — a
stored original is never overwritten by a later `EnterRaw` and is captured
the first time it is needed — and every `Restore` restores from that stored
original, so a manager created with the terminal in state `a0` brings the
terminal back to `a0` after any sequence of `EnterRaw`/`Restore` calls that
ends outside raw mode (restore syscalls succeeding). -/
theorem C5_original_attrs_once (raw a0 chan0 : Nat) (ops : List TermOp)
    (hops : ∀ op ∈ ops, op.restoreSysOk = true) :
    (∀ (w : World) (a sess ch : Nat) (ok : Bool),
      w.mgr.originalState = some a →
      ((EnterRaw raw sess ch ok w).1.mgr.originalState = some a ∧
       (Restore ch ok w).1.mgr.originalState = some a)) ∧
    (∀ (w : World) (sess ch : Nat),
      w.mgr.originalState = none → w.mgr.inRawMode = false →
      (EnterRaw raw sess ch true w).1.mgr.originalState = some w.attrs) ∧
    ((runTermOps raw ops ⟨a0, NewManager true a0 chan0⟩).mgr.originalState = some a0 ∧
     ((runTermOps raw ops ⟨a0, NewManager true a0 chan0⟩).mgr.inRawMode = false →
      (runTermOps raw ops ⟨a0, NewManager true a0 chan0⟩).attrs = a0)) := by
  refine ⟨?_, ?_, ?_⟩
  · intro w a sess ch ok ha
    constructor
    · by_cases hr : w.mgr.inRawMode <;> cases ok <;>
        simp [EnterRaw, hr, ha]
    · by_cases hr : w.mgr.inRawMode <;> cases ok <;>
        simp [Restore, hr, ha]
  · intro w sess ch hnone hr
    simp [EnterRaw, hr, hnone]
  · exact runTermOps_invariant raw a0 ops hops ⟨a0, NewManager true a0 chan0⟩
      (by simp [NewManager]) (fun _ => rfl)

/-- Concrete instance of `C5_original_attrs_once`: two full
enter-raw/restore cycles from original attributes `7` end with the terminal
back at `7` and the stored original still `7`. -/
theorem C5_original_attrs_once_witness :
    (runTermOps 99
        [.enterRaw 1 1 true, .restoreCall 2 true, .enterRaw 3 3 true, .restoreCall 4 true]
        ⟨7, NewManager true 7 0⟩).mgr.originalState = some 7 ∧
    (runTermOps 99
        [.enterRaw 1 1 true, .restoreCall 2 true, .enterRaw 3 3 true, .restoreCall 4 true]
        ⟨7, NewManager true 7 0⟩).attrs = 7 := by
  have h := C5_original_attrs_once 99 7 0
    [.enterRaw 1 1 true, .restoreCall 2 true, .enterRaw 3 3 true, .restoreCall 4 true]
    (by intro op hop; fin_cases hop <;> rfl)
  exact ⟨h.2.2.1, h.2.2.2 rfl⟩

/-! ## Interactive session coordinator (main.go, runSSH) -/

/-- The operations `runSSH` performs on its successful path, in program
order. Starting a unit of concurrency is itself an operation; the unit's own
body is not interleaved here. -/
inductive SSHEv where
  | createSession
  | requestPTY
  | getStdinPipe
  | connectStdout
  | startShell
  | startStdinForward
  | startSessionWait
  | enterRawMode
  | restoreTerminal
  | closeStdinPipe
  | waitStdinDoneBounded
  | waitSessionGrace
  | forceCloseSession
  | waitSessionDone
  | printNewline
  deriving DecidableEq, Repr

/-- The trace of the successful path of `runSSH`: session setup, both
concurrency units started, then raw mode; the tail branches on which of
"session completed" (`sessionFirst`) and "local stdin exhausted" wins the
select, and in the stdin-first branch on whether the 500ms grace window
expires before the session completes. The final step-11 `Restore` is guarded
by `InRaw()`, which is false on every path here, so it contributes no
operation. -/
def runSSHTrace (sessionFirst graceExpires : Bool) : List SSHEv :=
  [.createSession, .requestPTY, .getStdinPipe, .connectStdout, .startShell,
   .startStdinForward, .startSessionWait, .enterRawMode] ++
  (if sessionFirst then
    [.restoreTerminal, .closeStdinPipe, .waitStdinDoneBounded]
  else
    (if graceExpires then [.waitSessionGrace, .forceCloseSession, .waitSessionDone]
     else [.waitSessionGrace]) ++ [.restoreTerminal]) ++
  [.printNewline]

/-- C4: on every path of `runSSH`, the stdin-forwarding unit and the
session-completion watcher are started strictly before the terminal is
switched to raw mode; and on the path where session completion wins the
select, the terminal is restored strictly before the session's input stream
is closed. -/
theorem C4_coordinator_ordering (sessionFirst graceExpires : Bool) :
    (runSSHTrace sessionFirst graceExpires).indexOf .startStdinForward <
      (runSSHTrace sessionFirst graceExpires).indexOf .enterRawMode ∧
    (runSSHTrace sessionFirst graceExpires).indexOf .startSessionWait <
      (runSSHTrace sessionFirst graceExpires).indexOf .enterRawMode ∧
    (sessionFirst = true →
      (runSSHTrace sessionFirst graceExpires).indexOf .restoreTerminal <
        (runSSHTrace sessionFirst graceExpires).indexOf .closeStdinPipe) := by
  cases sessionFirst <;> cases graceExpires <;>
    exact ⟨by decide, by decide, fun _ => by decide⟩

/-- Concrete instance of `C4_coordinator_ordering` on the session-completes-
first path. -/
theorem C4_coordinator_ordering_witness :
    (runSSHTrace true false).indexOf .restoreTerminal <
      (runSSHTrace true false).indexOf .closeStdinPipe :=
  (C4_coordinator_ordering true false).2.2 rfl

/-! ## Cancellable transfer engine (pkg/sftp/commands.go, pkg/sftp/progress.go) -/

/-- How a copy loop ends when it does not complete: an observed context
cancellation or an I/O error. -/
inductive CopyErr where
  | cancelled
  | ioError (msg : String)
  deriving DecidableEq, Repr

/-- `io.CopyBuffer(progressWriter, srcFile, buf)`: the source yields a
sequence of buffer-sized chunks (each a byte count or a read error);
`progressWriter.Write` checks the context before every chunk write
(`cancelAt i` is whether the context is observed done at the `i`-th write
boundary) and otherwise accumulates the written byte count. -/
def copyLoop (cancelAt : Nat → Bool) : Nat → Int → List (Except String Int) →
    Except CopyErr Int
  | _, written, [] => .ok written
  | i, written, c :: rest =>
    match c with
    | .error e => .error (.ioError e)
    | .ok n =>
      if cancelAt i then .error .cancelled
      else copyLoop cancelAt (i + 1) (written + n) rest

/-- Classification of one single-file transfer's return value. -/
inductive TransferResult where
  | done
  | cancelledEarly
  | failed (stage : String)
  deriving DecidableEq, Repr

/-- The fallible steps of `Shell.downloadSingleFile`, as oracles: the
pre-copy context check, the remote open, the remote stat (with the reported
source size), the local create, the chunked copy (with its per-boundary
cancellation observations), the sync and the close. `cancelAtReturn` is
whether the context is observed cancelled by the deferred cleanup when the
function returns. -/
structure DownloadEnv where
  cancelBefore : Bool
  openOk : Bool
  statOk : Bool
  size : Int
  createOk : Bool
  cancelAt : Nat → Bool
  chunks : List (Except String Int)
  syncOk : Bool
  closeOk : Bool
  cancelAtReturn : Bool

/-- `Shell.downloadSingleFile` on destination path `dst`, where `preExists`
says whether a file already sits at `dst`. The returned `Bool` is whether a
file exists at `dst` afterwards: the local create brings one into existence,
and every post-create failure — copy error, observed cancellation, byte
count differing from the source size, sync failure, close failure — runs
`os.Remove(localPath)`; the deferred cleanup additionally removes the file
when the context is cancelled by return time. -/
def downloadSingleFile (preExists : Bool) (env : DownloadEnv) :
    TransferResult × Bool :=
  if env.cancelBefore then (.cancelledEarly, preExists)
  else if !env.openOk then (.failed "open remote", preExists)
  else if !env.statOk then (.failed "stat remote", preExists)
  else if !env.createOk then (.failed "create local", preExists)
  else
    match copyLoop env.cancelAt 0 0 env.chunks with
    | .error .cancelled => (.failed "copy file: context canceled", false)
    | .error (.ioError e) => (.failed ("copy file: " ++ e), false)
    | .ok written =>
      if written ≠ env.size then (.failed "incomplete download", false)
      else if !env.syncOk then (.failed "sync file", false)
      else if !env.closeOk then (.failed "close file", false)
      else if env.cancelAtReturn then (.done, false)
      else (.done, true)

/-- C7: in any single-file download that reaches the copy (the destination
file has been created), if the copy fails, a cancellation is observed
mid-copy, or the byte count differs from the reported source size, then the
operation does not succeed and the partially written destination file is
removed — no file remains at the destination path. -/
theorem C7_single_file_no_partial (preExists : Bool) (env : DownloadEnv)
    (hcb : env.cancelBefore = false) (ho : env.openOk = true)
    (hs : env.statOk = true) (hc : env.createOk = true)
    (h : (∃ e, copyLoop env.cancelAt 0 0 env.chunks = .error e) ∨
         (∃ w, copyLoop env.cancelAt 0 0 env.chunks = .ok w ∧ w ≠ env.size)) :
    (downloadSingleFile preExists env).1 ≠ .done ∧
    (downloadSingleFile preExists env).2 = false := by
  rcases h with ⟨e, he⟩ | ⟨w, hw, hne⟩
  · cases e <;> simp [downloadSingleFile, hcb, ho, hs, hc, he]
  · simp [downloadSingleFile, hcb, ho, hs, hc, hw, hne]

/-- Concrete instance of `C7_single_file_no_partial`: a cancellation is
observed at the second write boundary of a 3-chunk copy; the destination is
removed even though it pre-existed. -/
theorem C7_single_file_no_partial_witness :
    (downloadSingleFile true
        ⟨false, true, true, 3145728, true, fun i => decide (1 ≤ i),
         [.ok 1048576, .ok 1048576, .ok 1048576], true, true, true⟩).1 ≠ .done ∧
    (downloadSingleFile true
        ⟨false, true, true, 3145728, true, fun i => decide (1 ≤ i),
         [.ok 1048576, .ok 1048576, .ok 1048576], true, true, true⟩).2 = false :=
  C7_single_file_no_partial true
    ⟨false, true, true, 3145728, true, fun i => decide (1 ≤ i),
     [.ok 1048576, .ok 1048576, .ok 1048576], true, true, true⟩
    rfl rfl rfl rfl (Or.inl ⟨.cancelled, rfl⟩)

/-- A remote file discovered by the pre-scan: relative path and size. -/
structure remoteFileInfo where
  RelPath : String
  Size : Int
  deriving Inhabited, DecidableEq, Repr

/-- Outcome of `Shell.downloadDirectory`: whether the run was cut short by a
context cancellation, the reported count and byte total, the failing
relative paths in encounter order, and whether the overall operation
returns an error. -/
structure DirDownloadOutcome where
  cancelled : Bool
  downloadedCount : Nat
  downloadedSize : Int
  failedFiles : List String
  failed : Bool
  deriving DecidableEq, Repr

/-- The per-file loop of `downloadDirectory`: before file `i` the context is
checked (`cancel i` aborts the whole batch); a failed parent-directory
creation (`mkdirOk i = false`) or a failed single-file download
(`fileOk i = false`) records the file's relative path and continues with the
next file; a success bumps the count and the byte total. When the list is
exhausted the operation fails iff any file failed. -/
def downloadDirLoop (cancel mkdirOk fileOk : Nat → Bool) :
    Nat → List remoteFileInfo → Nat → Int → List String → DirDownloadOutcome
  | _, [], cnt, size, failedAcc => ⟨false, cnt, size, failedAcc, !failedAcc.isEmpty⟩
  | i, f :: rest, cnt, size, failedAcc =>
    if cancel i then ⟨true, cnt, size, failedAcc, true⟩
    else if !mkdirOk i then
      downloadDirLoop cancel mkdirOk fileOk (i + 1) rest cnt size
        (failedAcc ++ [f.RelPath])
    else if !fileOk i then
      downloadDirLoop cancel mkdirOk fileOk (i + 1) rest cnt size
        (failedAcc ++ [f.RelPath])
    else
      downloadDirLoop cancel mkdirOk fileOk (i + 1) rest (cnt + 1)
        (size + f.Size) failedAcc

/-- `Shell.downloadDirectory` after a successful pre-scan yielding `files`:
an empty enumeration just creates the destination directory and succeeds;
otherwise the per-file loop runs from index 0 with empty accumulators. -/
def downloadDirectory (cancel mkdirOk fileOk : Nat → Bool)
    (files : List remoteFileInfo) : DirDownloadOutcome :=
  if files.isEmpty then ⟨false, 0, 0, [], false⟩
  else downloadDirLoop cancel mkdirOk fileOk 0 files 0 0 []

theorem downloadDirLoop_spec (cancel mkdirOk fileOk : Nat → Bool)
    (hc : ∀ i, cancel i = false) :
    ∀ (rest : List remoteFileInfo) (i cnt : Nat) (size : Int) (facc : List String),
      downloadDirLoop cancel mkdirOk fileOk i rest cnt size facc =
        { cancelled := false,
          downloadedCount := cnt + ((rest.enumFrom i).filter
            (fun p => mkdirOk p.1 && fileOk p.1)).length,
          downloadedSize := size + (((rest.enumFrom i).filter
            (fun p => mkdirOk p.1 && fileOk p.1)).map (fun p => p.2.Size)).sum,
          failedFiles := facc ++ ((rest.enumFrom i).filter
            (fun p => !(mkdirOk p.1 && fileOk p.1))).map (fun p => p.2.RelPath),
          failed := !(facc ++ ((rest.enumFrom i).filter
            (fun p => !(mkdirOk p.1 && fileOk p.1))).map
              (fun p => p.2.RelPath)).isEmpty } := by
  intro rest
  induction rest with
  | nil => intro i cnt size facc; simp [downloadDirLoop, List.enumFrom]
  | cons f rest ih =>
    intro i cnt size facc
    rw [downloadDirLoop, hc i]
    by_cases hm : mkdirOk i
    · by_cases hf : fileOk i
      · simp only [hm, hf, Bool.not_true, Bool.false_eq_true, if_false, if_true]
        rw [ih]
        simp [List.enumFrom, hm, hf]
        constructor
        · omega
        · ring
      · simp only [hm, hf, Bool.not_true, Bool.not_false, Bool.false_eq_true,
          if_false, if_true]
        rw [ih]
        simp [List.enumFrom, hm, hf]
    · simp only [hm, Bool.not_false, Bool.false_eq_true, if_false, if_true]
      rw [ih]
      simp [List.enumFrom, hm]

/-- C8: in a directory download of `n` enumerated files without
cancellation, of which `f` fail (parent-directory creation or per-file
download), the batch continues past each failure: the report gives
`downloadedCount = n - f`, the failing list is exactly the relative paths of
the failing entries in order, and the overall operation fails iff `f > 0`. -/
theorem C8_directory_download_report (cancel mkdirOk fileOk : Nat → Bool)
    (files : List remoteFileInfo) (hc : ∀ i, cancel i = false) :
    (downloadDirectory cancel mkdirOk fileOk files).downloadedCount =
      files.length -
        ((files.enum.filter (fun p => !(mkdirOk p.1 && fileOk p.1))).map
          (fun p => p.2.RelPath)).length ∧
    (downloadDirectory cancel mkdirOk fileOk files).failedFiles =
      (files.enum.filter (fun p => !(mkdirOk p.1 && fileOk p.1))).map
        (fun p => p.2.RelPath) ∧
    ((downloadDirectory cancel mkdirOk fileOk files).failed = true ↔
      (files.enum.filter (fun p => !(mkdirOk p.1 && fileOk p.1))).map
        (fun p => p.2.RelPath) ≠ []) := by
  have hsplit := List.length_eq_length_filter_add
    (l := files.enum) (fun p => mkdirOk p.1 && fileOk p.1)
  cases files with
  | nil =>
    simp [downloadDirectory, List.enum]
  | cons f rest =>
    rw [downloadDirectory]
    simp only [List.isEmpty_cons, Bool.false_eq_true, if_false]
    rw [downloadDirLoop_spec cancel mkdirOk fileOk hc]
    simp only [List.enum] at hsplit ⊢
    refine ⟨?_, by simp, ?_⟩
    · simp only [List.length_map]
      simp only [List.enumFrom_length] at hsplit
      omega
    · simp [List.isEmpty_iff]

/-- Concrete instance of `C8_directory_download_report`: 2 of 5 files fail
(the second file's mkdir and the fourth file's download), so 3 are
downloaded, the two failing paths are listed and the batch fails overall. -/
theorem C8_directory_download_report_witness :
    (downloadDirectory (fun _ => false) (fun i => !(i == 1)) (fun i => !(i == 3))
        [⟨"a", 1⟩, ⟨"b", 2⟩, ⟨"c", 3⟩, ⟨"d", 4⟩, ⟨"e", 5⟩]).downloadedCount = 3 ∧
    (downloadDirectory (fun _ => false) (fun i => !(i == 1)) (fun i => !(i == 3))
        [⟨"a", 1⟩, ⟨"b", 2⟩, ⟨"c", 3⟩, ⟨"d", 4⟩, ⟨"e", 5⟩]).failedFiles = ["b", "d"] ∧
    (downloadDirectory (fun _ => false) (fun i => !(i == 1)) (fun i => !(i == 3))
        [⟨"a", 1⟩, ⟨"b", 2⟩, ⟨"c", 3⟩, ⟨"d", 4⟩, ⟨"e", 5⟩]).failed = true := by
  have h := C8_directory_download_report (fun _ => false) (fun i => !(i == 1))
    (fun i => !(i == 3)) [⟨"a", 1⟩, ⟨"b", 2⟩, ⟨"c", 3⟩, ⟨"d", 4⟩, ⟨"e", 5⟩]
    (fun _ => rfl)
  refine ⟨?_, ?_, ?_⟩
  · rw [h.1]; decide
  · rw [h.2.1]; decide
  · exact h.2.2.mpr (by decide)

/-! ### Directory pre-scan walkers -/

/-- The file-mode kinds distinguished by the walkers' checks; `irregular`
stands for any further non-regular, non-special mode. -/
inductive EntryKind where
  | regular
  | symlink
  | device
  | namedPipe
  | socket
  | irregular
  deriving DecidableEq, Repr

/-- A source-side directory tree as surfaced by `ReadDir`-style listings:
leaf entries carry the mode kind from the listing (a symlinked directory
surfaces as a `symlink` leaf, since such listings do not follow links). -/
inductive FSNode where
  | file (name : String) (size : Int) (kind : EntryKind)
  | dir (name : String) (entries : List FSNode)

/-- The `entryRelPath` computation shared by both walkers: the top level
uses the bare entry name, deeper levels join the running relative path (the
remote walker uses `joinPath`; the local walker's `filepath.Join` coincides
with it on the slash-free names a directory listing produces). -/
def entryRel (rel name : String) : String :=
  if rel = "" then name else joinPath rel name

/-- `Shell.walkRemoteDir` on the listed tree: symlink, device, named-pipe
and socket entries are skipped; directories are recursed into; regular files
are appended with relative path and size (any remaining irregular mode falls
through both branches and is dropped). -/
def walkRemoteDir (rel : String) : List FSNode → List (String × Int)
  | [] => []
  | .file n s k :: rest =>
    (if k = .symlink ∨ k = .device ∨ k = .namedPipe ∨ k = .socket then []
     else if k = .regular then [(entryRel rel n, s)] else []) ++
    walkRemoteDir rel rest
  | .dir n es :: rest =>
    walkRemoteDir (entryRel rel n) es ++ walkRemoteDir rel rest

/-- `Shell.walkLocalDir`: directories are recursed into and every other
entry is appended with its relative path and size — the local walker has no
mode check at all. -/
def walkLocalDir (rel : String) : List FSNode → List (String × Int)
  | [] => []
  | .file n s _ :: rest => (entryRel rel n, s) :: walkLocalDir rel rest
  | .dir n es :: rest =>
    walkLocalDir (entryRel rel n) es ++ walkLocalDir rel rest

/-- The scan restriction the spec's words describe — "skipping non-regular
entries (symlinks, devices, sockets, pipes, on the source side)": the same
tree with every non-regular leaf removed. -/
def pruneNonRegular : List FSNode → List FSNode
  | [] => []
  | .file n s k :: rest =>
    (if k = .regular then [FSNode.file n s k] else []) ++ pruneNonRegular rest
  | .dir n es :: rest => .dir n (pruneNonRegular es) :: pruneNonRegular rest

/-- Relabel every leaf's mode kind; used to express that the local walker is
insensitive to modes. -/
def relabelKinds (g : EntryKind → EntryKind) : List FSNode → List FSNode
  | [] => []
  | .file n s k :: rest => .file n s (g k) :: relabelKinds g rest
  | .dir n es :: rest => .dir n (relabelKinds g es) :: relabelKinds g rest

theorem walkRemoteDir_pruneNonRegular (rel : String) (es : List FSNode) :
    walkRemoteDir rel (pruneNonRegular es) = walkRemoteDir rel es := by
  induction rel, es using walkRemoteDir.induct with
  | case1 rel => simp [pruneNonRegular]
  | case2 rel n s k rest ih =>
    cases k <;> simp [pruneNonRegular, walkRemoteDir, ih]
  | case3 rel n es rest ih1 ih2 =>
    simp [pruneNonRegular, walkRemoteDir, ih1, ih2]

theorem walkLocalDir_relabelKinds (g : EntryKind → EntryKind) (rel : String)
    (es : List FSNode) :
    walkLocalDir rel (relabelKinds g es) = walkLocalDir rel es := by
  induction rel, es using walkLocalDir.induct with
  | case1 rel => simp [relabelKinds]
  | case2 rel n s k rest ih =>
    simp [relabelKinds, walkLocalDir, ih]
  | case3 rel n es rest ih1 ih2 =>
    simp [relabelKinds, walkLocalDir, ih1, ih2]

/-- C9 as stated fails on the code: the local-side walk used by upload does
not skip non-regular entries — a named pipe of size 5 is listed (the
remote-side walk skips it). -/
theorem C9_walk_counterexample :
    walkLocalDir "" [FSNode.file "p" 5 .namedPipe] = [("p", 5)] ∧
    walkRemoteDir "" [FSNode.file "p" 5 .namedPipe] = [] := by
  constructor <;> simp [walkLocalDir, walkRemoteDir, entryRel]

/-- C9 amended: only the remote-side walk used by download skips non-regular
source entries (its scan is unchanged by deleting every non-regular leaf);
the local-side walk used by upload ignores entry modes entirely — it lists
every non-directory entry whatever its kind (e.g. a named pipe of size 5). -/
theorem C9_walk_nonregular (g : EntryKind → EntryKind) (rel : String)
    (es : List FSNode) :
    walkRemoteDir rel es = walkRemoteDir rel (pruneNonRegular es) ∧
    walkLocalDir rel (relabelKinds g es) = walkLocalDir rel es ∧
    walkLocalDir "" [FSNode.file "p" 5 .namedPipe] = [("p", 5)] :=
  ⟨(walkRemoteDir_pruneNonRegular rel es).symm,
   walkLocalDir_relabelKinds g rel es,
   by simp [walkLocalDir, entryRel]⟩

end SSHM
